import Mathlib

/-!
Verification of the ordne migration core.

A shallow embedding of the planning / execution / verification / rollback
engine of the `ordne` repository, translated from the Rust sources:

* `crates/prune/src/migrate/planner.rs`   (plan creation, approval)
* `crates/prune/src/migrate/engine.rs`    (step execution)
* `crates/prune/src/migrate/rollback.rs`  (rollback engine)
* `crates/prune/src/migrate/space.rs`     (space accounting)
* `crates/prune/src/migrate/hash.rs`      (hash verification)
* `crates/ordne/src/db/plans.rs`          (catalog rows for plans / steps)
* `crates/ordne/src/db/mod.rs`            (data model, enums)
* `crates/ordne/src/error.rs`             (error taxonomy)

Modelling conventions:
* `i64` / `i32` fields become `Int`; `u64` quantities become `Nat`.
* Timestamps are not modelled (`executed_at` becomes a `Bool` recording
  whether `mark_step_executed` ran); no claim depends on clock values.
* The SQLite catalog becomes an explicit `Db` state record; each SQL
  statement becomes a function on `Db`.  Statements are individually
  atomic, exactly as in the source (there is no enclosing transaction in
  the Rust code).  To reason about runtime INSERT failures (I/O errors,
  constraint violations) the state carries a failure-injection countdown
  for `add_step`; `none` means every insert succeeds.
* The filesystem becomes an association list from path strings to file
  entries.  An entry records the file's size and the hex digests of its
  current content (the streaming hash primitives of `hash.rs` are
  external to the core per the specification, so a file is represented
  by the digests the primitives would return).  Directories are not
  modelled: `create_dir_all` always succeeds, matching the source's
  behaviour when the ancestors can be created.
* The external copy tools (`rsync.rs` / `rclone.rs`) are modelled as a
  successful transfer of the file entry to the destination path; their
  subprocess failure modes are not needed by any claim.
-/

namespace Ordne

/-! ## Data model (`crates/ordne/src/db/mod.rs`) -/

inductive PlanStatus where
  | draft
  | approved
  | inProgress
  | completed
  | aborted
  deriving DecidableEq, Repr, BEq

inductive StepAction where
  | move
  | copy
  | delete
  | hardlink
  | symlink
  deriving DecidableEq, Repr, BEq

/-- `StepAction::as_str`. -/
def StepAction.as_str : StepAction → String
  | .move => "move"
  | .copy => "copy"
  | .delete => "delete"
  | .hardlink => "hardlink"
  | .symlink => "symlink"

inductive StepStatus where
  | pending
  | inProgress
  | completed
  | failed
  | rolledBack
  deriving DecidableEq, Repr, BEq

inductive Backend where
  | local
  | rclone
  deriving DecidableEq, Repr, BEq

/-- The fields of `Drive` that the migration core reads.  The remaining
columns (device ids, capacity, role, flags, timestamps) are never touched
by the planner, engine or rollback engine. -/
structure Drive where
  id : Int
  label : String
  mount_path : Option String
  backend : Backend
  rclone_remote : Option String
  deriving DecidableEq, Repr

/-- The fields of `File` that the planner reads when building steps.  The
remaining columns (classification, duplicate membership, lifecycle,
timestamps) are never read by the four plan-creation operations. -/
structure File where
  id : Int
  drive_id : Int
  path : String
  abs_path : String
  size_bytes : Int
  md5_hash : Option String
  blake3_hash : Option String
  target_path : Option String
  deriving DecidableEq, Repr

structure MigrationPlan where
  id : Int
  description : Option String
  source_drive_id : Option Int
  target_drive_id : Option Int
  status : PlanStatus
  total_files : Int
  total_bytes : Int
  completed_files : Int
  completed_bytes : Int
  deriving DecidableEq, Repr

structure MigrationStep where
  id : Int
  plan_id : Int
  file_id : Int
  action : StepAction
  source_path : String
  source_drive_id : Int
  dest_path : Option String
  dest_drive_id : Option Int
  status : StepStatus
  pre_hash : Option String
  post_hash : Option String
  executed_at : Bool
  error : Option String
  step_order : Int
  deriving DecidableEq, Repr

structure AuditLogEntry where
  action : String
  file_id : Option Int
  plan_id : Option Int
  drive_id : Option Int
  details : Option String
  agent_mode : Option String
  deriving DecidableEq, Repr

/-! ## Error taxonomy (`crates/ordne/src/error.rs`) -/

inductive Err where
  | database (msg : String)
  | io (msg : String)
  | config (msg : String)
  | driveNotFound (s : String)
  | fileNotFound (path : String)
  | insufficientSpace (available required : Nat)
  | migration (msg : String)
  | planNotFound (id : Int)
  | planNotApproved (id : Int)
  | sourceChanged (expected actual : String)
  | destinationVerification (path : String)
  deriving DecidableEq, Repr

/-- The `thiserror` display strings, used where the source stores
`e.to_string()` into a catalog column. -/
def Err.render : Err → String
  | .database msg => "Database error: " ++ msg
  | .io msg => "IO error: " ++ msg
  | .config msg => "Configuration error: " ++ msg
  | .driveNotFound s => "Drive not found: " ++ s
  | .fileNotFound p => "File not found: " ++ p
  | .insufficientSpace a r =>
      "Insufficient space: " ++ toString a ++ " bytes available, "
        ++ toString r ++ " bytes required"
  | .migration msg => "Migration error: " ++ msg
  | .planNotFound id => "Plan not found: " ++ toString id
  | .planNotApproved id => "Plan not approved: " ++ toString id
  | .sourceChanged e a =>
      "Source file changed: expected hash " ++ e ++ ", current hash " ++ a
  | .destinationVerification p => "Destination verification failed for " ++ p

/-! ## Filesystem model -/

/-- A catalogued on-disk file: its size and the hex digests its current
content hashes to.  The streaming hash primitives are external to the
core (spec section 4.6), so content is represented by its digests. -/
structure Entry where
  size : Int
  blake3Hex : String
  md5Hex : String
  deriving DecidableEq, Repr

/-- The filesystem: an association list from absolute path strings to
entries.  The head-most binding for a path is the current file. -/
abbrev Fs : Type := List (String × Entry)

def Fs.find : Fs → String → Option Entry
  | [], _ => none
  | kv :: rest, p => if kv.1 == p then some kv.2 else Fs.find rest p

/-- `fs::remove_file` (also used to overwrite before a write). -/
def Fs.remove : Fs → String → Fs
  | [], _ => []
  | kv :: rest, p => if kv.1 == p then Fs.remove rest p else kv :: Fs.remove rest p

/-- Create or overwrite the file at `p` with entry `e`. -/
def Fs.write (fs : Fs) (p : String) (e : Entry) : Fs :=
  (p, e) :: Fs.remove fs p

/-! ## Space accounting (`crates/prune/src/migrate/space.rs`)

`max_safe_write_bytes` computes `(free_bytes as f64 * 0.5) as u64`
and takes the minimum with `available_bytes`.  The conversion
`u64 → f64` rounds to the nearest representable double (ties to even);
the multiplication by `0.5` is exact in binary floating point; the cast
back to `u64` truncates toward zero.  `u64AsF64` models the value of
`n as f64` exactly as a natural number. -/

/-- Exponent `e` such that doubles in the binade of `n` are spaced
`2 ^ e` apart: `0` for `n < 2 ^ 53`, else `p - 52` where
`2 ^ p ≤ n < 2 ^ (p + 1)`. -/
def binadeExp (n : Nat) : Nat :=
  (List.filter (fun e => decide (2 ^ 53 * 2 ^ e ≤ n)) (List.range 64)).length

/-- Round `n` to the nearest multiple of `g`, ties to the even multiple. -/
def roundTiesEven (n g : Nat) : Nat :=
  let q := n / g
  let r := n % g
  if 2 * r < g then q * g
  else if g < 2 * r then (q + 1) * g
  else if q % 2 = 0 then q * g else (q + 1) * g

/-- The exact value of the Rust conversion `n as f64` for `n : u64`. -/
def u64AsF64 (n : Nat) : Nat := roundTiesEven n (2 ^ binadeExp n)

structure SpaceInfo where
  total_bytes : Nat
  free_bytes : Nat
  used_bytes : Nat
  available_bytes : Nat
  deriving DecidableEq, Repr

/-- `SpaceInfo::max_safe_write_bytes`:
`((free_bytes as f64) * SAFETY_HEADROOM_PERCENT) as u64`, capped at
`available_bytes`.  `SAFETY_HEADROOM_PERCENT = 0.50`, so the float
product is exactly `u64AsF64 free / 2` after the truncating cast. -/
def SpaceInfo.max_safe_write_bytes (s : SpaceInfo) : Nat :=
  Nat.min (u64AsF64 s.free_bytes / 2) s.available_bytes

/-- `SpaceInfo::can_safely_write`. -/
def SpaceInfo.can_safely_write (s : SpaceInfo) (bytes : Nat) : Bool :=
  bytes ≤ s.max_safe_write_bytes

/-- The operating-system `statvfs` oracle: which mount paths exist and
what space they report.  `get_free_space` returns `FileNotFound` for a
path the oracle does not know, mirroring the `!path.exists()` check. -/
def SpaceEnv : Type := String → Option SpaceInfo

/-- `space::get_free_space`. -/
def get_free_space (env : SpaceEnv) (path : String) : Except Err SpaceInfo :=
  match env path with
  | none => .error (.fileNotFound path)
  | some si => .ok si

/-- `space::verify_sufficient_space`. -/
def verify_sufficient_space (env : SpaceEnv) (path : String)
    (required_bytes : Nat) : Except Err Unit :=
  match get_free_space env path with
  | .error e => .error e
  | .ok si =>
    if !(si.can_safely_write required_bytes) then
      .error (.insufficientSpace si.max_safe_write_bytes required_bytes)
    else
      .ok ()

/-! ## Hash verification (`crates/prune/src/migrate/hash.rs`) -/

/-- `str::eq_ignore_ascii_case` on the two hex strings. -/
def asciiLowerChar (c : Char) : Char :=
  if 'A' ≤ c ∧ c ≤ 'Z' then Char.ofNat (c.toNat + 32) else c

def eqIgnoreAsciiCase (a b : String) : Bool :=
  a.data.map asciiLowerChar == b.data.map asciiLowerChar

/-- `hash::compute_blake3_hash`: opening a missing file is an I/O error;
otherwise the primitive returns the content's BLAKE3 hex digest. -/
def compute_blake3_hash (fs : Fs) (path : String) : Except Err String :=
  match Fs.find fs path with
  | none => .error (.io ("No such file: " ++ path))
  | some e => .ok e.blake3Hex

/-- `hash::compute_md5_hash`. -/
def compute_md5_hash (fs : Fs) (path : String) : Except Err String :=
  match Fs.find fs path with
  | none => .error (.io ("No such file: " ++ path))
  | some e => .ok e.md5Hex

/-- `hash::verify_hash`: a missing path yields `Ok(false)`; otherwise the
expected string's length selects the algorithm (64 ⇒ BLAKE3, 32 ⇒ MD5,
anything else is an error) and the digests are compared
case-insensitively. -/
def verify_hash (fs : Fs) (path : String) (expected_hash : String) :
    Except Err Bool :=
  match Fs.find fs path with
  | none => .ok false
  | some entry =>
    if expected_hash.length = 64 then
      .ok (eqIgnoreAsciiCase entry.blake3Hex expected_hash)
    else if expected_hash.length = 32 then
      .ok (eqIgnoreAsciiCase entry.md5Hex expected_hash)
    else
      .error (.migration ("Invalid hash length: " ++ toString expected_hash.length))

/-- `hash::verify_source_unchanged`. -/
def verify_source_unchanged (fs : Fs) (path : String) (expected_hash : String) :
    Except Err Unit :=
  match verify_hash fs path expected_hash with
  | .error e => .error e
  | .ok true => .ok ()
  | .ok false =>
    match (if expected_hash.length = 64
           then compute_blake3_hash fs path
           else compute_md5_hash fs path) with
    | .error e => .error e
    | .ok actual => .error (.sourceChanged expected_hash actual)

/-- `hash::verify_destination`. -/
def verify_destination (fs : Fs) (path : String) (expected_hash : String) :
    Except Err Unit :=
  match verify_hash fs path expected_hash with
  | .error e => .error e
  | .ok true => .ok ()
  | .ok false => .error (.destinationVerification path)

/-! ## The catalog (`crates/ordne/src/db/plans.rs`, `db/mod.rs`)

Each SQL statement of the source becomes one function on the `Db`
record.  There is no transaction machinery anywhere in the planner,
engine or the `PlansDatabase` implementation: every statement commits on
its own, which the state-passing style reproduces.  `failStepInsert` is
a failure-injection countdown modelling a runtime failure of the
`add_step` INSERT (I/O error, constraint violation): `some k` makes the
`k`-th following `add_step` call fail; `none` (the normal case) makes
every insert succeed. -/

structure Db where
  drives : List Drive
  plans : List MigrationPlan
  steps : List MigrationStep
  audits : List AuditLogEntry
  nextPlanId : Int
  nextStepId : Int
  failStepInsert : Option Nat
  deriving DecidableEq, Repr

/-- `PlansDatabase::create_plan`: the INSERT lists only description,
drive ids, status and the totals; `completed_files` / `completed_bytes`
take their schema defaults of 0 and the row id is assigned by the
database. -/
def create_plan (db : Db) (plan : MigrationPlan) : Int × Db :=
  let id := db.nextPlanId
  (id, { db with
          plans := db.plans ++
            [{ plan with id := id, completed_files := 0, completed_bytes := 0 }],
          nextPlanId := id + 1 })

/-- `PlansDatabase::get_plan`. -/
def get_plan (db : Db) (id : Int) : Option MigrationPlan :=
  db.plans.find? (fun p => p.id == id)

/-- `PlansDatabase::update_plan_status`: an UPDATE touching zero rows is
reported as `PlanNotFound`. -/
def update_plan_status (db : Db) (id : Int) (status : PlanStatus) :
    Except Err Unit × Db :=
  if db.plans.any (fun p => p.id == id) then
    (.ok (), { db with
      plans := db.plans.map (fun p =>
        if p.id == id then { p with status := status } else p) })
  else
    (.error (.planNotFound id), db)

/-- `PlansDatabase::update_plan_progress`. -/
def update_plan_progress (db : Db) (id : Int)
    (completed_files : Int) (completed_bytes : Int) : Except Err Unit × Db :=
  if db.plans.any (fun p => p.id == id) then
    (.ok (), { db with
      plans := db.plans.map (fun p =>
        if p.id == id then
          { p with completed_files := completed_files,
                   completed_bytes := completed_bytes }
        else p) })
  else
    (.error (.planNotFound id), db)

/-- The row actually persisted by the `add_step` INSERT.  The column
list of the INSERT statement names only plan_id, file_id, action,
source_path, source_drive_id, dest_path, dest_drive_id, status and
step_order; the struct's `pre_hash`, `post_hash`, `executed_at` and
`error` fields are NOT among the inserted columns, so the stored row
keeps their NULL defaults. -/
def persistedStepRow (id : Int) (step : MigrationStep) : MigrationStep :=
  { id := id
    plan_id := step.plan_id
    file_id := step.file_id
    action := step.action
    source_path := step.source_path
    source_drive_id := step.source_drive_id
    dest_path := step.dest_path
    dest_drive_id := step.dest_drive_id
    status := step.status
    pre_hash := none
    post_hash := none
    executed_at := false
    error := none
    step_order := step.step_order }

def addStepRow (db : Db) (step : MigrationStep) : Except Err Int × Db :=
  let id := db.nextStepId
  (.ok id, { db with
              steps := db.steps ++ [persistedStepRow id step],
              nextStepId := id + 1 })

/-- `PlansDatabase::add_step` with failure injection (see `Db`). -/
def add_step (db : Db) (step : MigrationStep) : Except Err Int × Db :=
  match db.failStepInsert with
  | some 0 => (.error (.database "INSERT INTO migration_steps failed"),
               { db with failStepInsert := none })
  | some (n + 1) => addStepRow { db with failStepInsert := some n } step
  | none => addStepRow db step

/-- `PlansDatabase::get_step`. -/
def get_step (db : Db) (id : Int) : Option MigrationStep :=
  db.steps.find? (fun s => s.id == id)

/-- `PlansDatabase::update_step_status`: the source ignores the row
count, so a missing id is not an error. -/
def update_step_status (db : Db) (id : Int) (status : StepStatus)
    (error : Option String) : Db :=
  { db with steps := db.steps.map (fun s =>
      if s.id == id then { s with status := status, error := error } else s) }

/-- `PlansDatabase::update_step_hashes`. -/
def update_step_hashes (db : Db) (id : Int) (pre_hash : String)
    (post_hash : Option String) : Db :=
  { db with steps := db.steps.map (fun s =>
      if s.id == id then
        { s with pre_hash := some pre_hash, post_hash := post_hash }
      else s) }

/-- `PlansDatabase::mark_step_executed` (the timestamp value itself is
not modelled). -/
def mark_step_executed (db : Db) (id : Int) : Db :=
  { db with steps := db.steps.map (fun s =>
      if s.id == id then { s with executed_at := true } else s) }

/-- Insertion into a list sorted by `step_order` (ascending), for the
SQL `ORDER BY step_order`. -/
def insertByOrder (s : MigrationStep) : List MigrationStep → List MigrationStep
  | [] => [s]
  | t :: ts =>
    if s.step_order ≤ t.step_order then s :: t :: ts else t :: insertByOrder s ts

def sortByOrder (l : List MigrationStep) : List MigrationStep :=
  l.foldr insertByOrder []

/-- `PlansDatabase::get_steps_for_plan`:
`WHERE plan_id = ? ORDER BY step_order`. -/
def get_steps_for_plan (db : Db) (plan_id : Int) : List MigrationStep :=
  sortByOrder (db.steps.filter (fun s => s.plan_id == plan_id))

/-- `PlansDatabase::get_pending_steps`:
`WHERE plan_id = ? AND status = 'pending' ORDER BY step_order`. -/
def get_pending_steps (db : Db) (plan_id : Int) : List MigrationStep :=
  sortByOrder (db.steps.filter (fun s =>
    s.plan_id == plan_id && s.status == StepStatus.pending))

/-- `AuditDatabase::log_audit` (a plain INSERT into the append-only
audit table). -/
def log_audit (db : Db) (entry : AuditLogEntry) : Db :=
  { db with audits := db.audits ++ [entry] }

/-- `Database::get_drive_by_id`. -/
def get_drive_by_id (db : Db) (id : Int) : Option Drive :=
  db.drives.find? (fun d => d.id == id)

/-! ## Planner (`crates/prune/src/migrate/planner.rs`) -/

structure PlannerOptions where
  max_batch_size_bytes : Option Nat
  enforce_space_limits : Bool
  dry_run : Bool
  deriving DecidableEq, Repr

/-- `PlannerOptions::default()`. -/
def PlannerOptions.default : PlannerOptions :=
  { max_batch_size_bytes := none, enforce_space_limits := true, dry_run := true }

/-- The step struct `create_delete_trash_plan` builds for one file: a
pending `delete` with `pre_hash: None`. -/
def trashStep (plan_id : Int) (f : File) (order : Nat) : MigrationStep :=
  { id := 0, plan_id := plan_id, file_id := f.id, action := .delete
    source_path := f.abs_path, source_drive_id := f.drive_id
    dest_path := none, dest_drive_id := none, status := .pending
    pre_hash := none, post_hash := none, executed_at := false
    error := none, step_order := Int.ofNat order }

/-- The step-insertion loop of `create_delete_trash_plan`: one pending
`delete` per file in input order. -/
def addTrashSteps : Db → Int → List File → Nat → Except Err Unit × Db
  | db, _, [], _ => (.ok (), db)
  | db, plan_id, f :: rest, order =>
    match add_step db (trashStep plan_id f order) with
    | (.ok _, db1) => addTrashSteps db1 plan_id rest (order + 1)
    | (.error e, db1) => (.error e, db1)

/-- The draft plan row `create_delete_trash_plan` builds. -/
def trashPlanRow (files : List File) : MigrationPlan :=
  { id := 0
    description := some ("Delete " ++ toString (Int.ofNat files.length)
      ++ " trash files")
    source_drive_id := none, target_drive_id := none, status := .draft
    total_files := Int.ofNat files.length
    total_bytes := (files.map (fun f => f.size_bytes)).sum
    completed_files := 0, completed_bytes := 0 }

/-- `Planner::create_delete_trash_plan`.  Note: unlike the other three
plan kinds there is no emptiness check on `files`. -/
def create_delete_trash_plan (db : Db) (files : List File) :
    Except Err Int × Db :=
  let pr := create_plan db (trashPlanRow files)
  match addTrashSteps pr.2 pr.1 files 0 with
  | (.ok _, db2) =>
    (.ok pr.1, log_audit db2
      { action := "plan_created", file_id := none, plan_id := some pr.1
        drive_id := none
        details := some ("Delete trash plan: "
          ++ toString (Int.ofNat files.length) ++ " files")
        agent_mode := some "automated" })
  | (.error e, db2) => (.error e, db2)

/-- The step struct `create_dedup_plan` builds for one duplicate: a
pending `delete` with `pre_hash` = the duplicate's BLAKE3 hash if
present, otherwise its MD5 hash. -/
def dedupStep (plan_id : Int) (f : File) (order : Nat) : MigrationStep :=
  { id := 0, plan_id := plan_id, file_id := f.id, action := .delete
    source_path := f.abs_path, source_drive_id := f.drive_id
    dest_path := none, dest_drive_id := none, status := .pending
    pre_hash := f.blake3_hash.or f.md5_hash
    post_hash := none, executed_at := false
    error := none, step_order := Int.ofNat order }

/-- The step-insertion loop of `create_dedup_plan`: one pending `delete`
per duplicate in input order. -/
def addDedupSteps : Db → Int → List File → Nat → Except Err Unit × Db
  | db, _, [], _ => (.ok (), db)
  | db, plan_id, f :: rest, order =>
    match add_step db (dedupStep plan_id f order) with
    | (.ok _, db1) => addDedupSteps db1 plan_id rest (order + 1)
    | (.error e, db1) => (.error e, db1)

/-- The draft plan row `create_dedup_plan` builds. -/
def dedupPlanRow (duplicate_files : List File) (original : File) :
    MigrationPlan :=
  { id := 0
    description := some ("Deduplicate "
      ++ toString (Int.ofNat duplicate_files.length)
      ++ " files (keep original: " ++ original.abs_path ++ ")")
    source_drive_id := none, target_drive_id := none, status := .draft
    total_files := Int.ofNat duplicate_files.length
    total_bytes := (duplicate_files.map (fun f => f.size_bytes)).sum
    completed_files := 0, completed_bytes := 0 }

/-- `Planner::create_dedup_plan`.  The only precondition checked is that
the duplicate list is non-empty; the nominated `original` is used solely
for the description and audit text. -/
def create_dedup_plan (db : Db) (duplicate_files : List File)
    (original : File) : Except Err Int × Db :=
  if duplicate_files.isEmpty then
    (.error (.migration "No duplicate files provided"), db)
  else
    let pr := create_plan db (dedupPlanRow duplicate_files original)
    match addDedupSteps pr.2 pr.1 duplicate_files 0 with
    | (.ok _, db2) =>
      (.ok pr.1, log_audit db2
        { action := "plan_created", file_id := none, plan_id := some pr.1
          drive_id := none
          details := some ("Deduplication plan: "
            ++ toString (Int.ofNat duplicate_files.length)
            ++ " duplicates, original: " ++ original.abs_path)
          agent_mode := some "automated" })
    | (.error e, db2) => (.error e, db2)

/-- The step struct `create_migrate_plan` builds for one file: a
pending `copy` with destination `<target-mount>/<target_path or path>`. -/
def migrateStep (plan_id target_drive_id : Int) (target_mount : String)
    (f : File) (order : Nat) : MigrationStep :=
  { id := 0, plan_id := plan_id, file_id := f.id, action := .copy
    source_path := f.abs_path, source_drive_id := f.drive_id
    dest_path := some (target_mount ++ "/" ++ f.target_path.getD f.path)
    dest_drive_id := some target_drive_id, status := .pending
    pre_hash := f.blake3_hash.or f.md5_hash
    post_hash := none, executed_at := false
    error := none, step_order := Int.ofNat order }

/-- The step-insertion loop of `create_migrate_plan`: one pending `copy`
per file in input order. -/
def addMigrateSteps : Db → Int → Int → String → List File → Nat →
    Except Err Unit × Db
  | db, _, _, _, [], _ => (.ok (), db)
  | db, plan_id, target_drive_id, target_mount, f :: rest, order =>
    match add_step db (migrateStep plan_id target_drive_id target_mount f order) with
    | (.ok _, db1) =>
      addMigrateSteps db1 plan_id target_drive_id target_mount rest (order + 1)
    | (.error e, db1) => (.error e, db1)

/-- `Planner::create_migrate_plan`.  `env` is the `statvfs` oracle used
by the space check (`total_bytes as u64` is `Int.toNat`: catalog sizes
are non-negative). -/
def create_migrate_plan (opts : PlannerOptions) (env : SpaceEnv) (db : Db)
    (files : List File) (target_drive_id : Int) (target_mount : String) :
    Except Err Int × Db :=
  match files with
  | [] => (.error (.migration "No files provided for migration"), db)
  | f0 :: _ =>
    let source_drive_id := f0.drive_id
    let total_files : Int := Int.ofNat files.length
    let total_bytes : Int := (files.map (fun f => f.size_bytes)).sum
    let spaceCheck : Except Err Unit :=
      if opts.enforce_space_limits then
        verify_sufficient_space env target_mount total_bytes.toNat
      else .ok ()
    match spaceCheck with
    | .error e => (.error e, db)
    | .ok _ =>
      let plan : MigrationPlan :=
        { id := 0
          description := some ("Migrate " ++ toString total_files
            ++ " files to target drive " ++ toString target_drive_id)
          source_drive_id := some source_drive_id
          target_drive_id := some target_drive_id, status := .draft
          total_files := total_files, total_bytes := total_bytes
          completed_files := 0, completed_bytes := 0 }
      let pr := create_plan db plan
      match addMigrateSteps pr.2 pr.1 target_drive_id target_mount files 0 with
      | (.ok _, db2) =>
        let db3 := log_audit db2
          { action := "plan_created", file_id := none, plan_id := some pr.1
            drive_id := some target_drive_id
            details := some ("Migration plan: " ++ toString total_files
              ++ " files, " ++ toString total_bytes ++ " bytes")
            agent_mode := some "automated" }
        (.ok pr.1, db3)
      | (.error e, db2) => (.error e, db2)

/-- The step-insertion loop of `create_offload_plan`: per file a pending
`copy` (order `2k`) followed by a pending `delete` of the source (order
`2k + 1`), both carrying the file's known hash. -/
def offloadCopyStep (plan_id offload_drive_id : Int) (offload_mount : String)
    (f : File) (order : Nat) : MigrationStep :=
  { id := 0, plan_id := plan_id, file_id := f.id, action := .copy
    source_path := f.abs_path, source_drive_id := f.drive_id
    dest_path := some (offload_mount ++ "/" ++ f.path)
    dest_drive_id := some offload_drive_id, status := .pending
    pre_hash := f.blake3_hash.or f.md5_hash
    post_hash := none, executed_at := false
    error := none, step_order := Int.ofNat (order * 2) }

def offloadDeleteStep (plan_id : Int) (f : File) (order : Nat) : MigrationStep :=
  { id := 0, plan_id := plan_id, file_id := f.id, action := .delete
    source_path := f.abs_path, source_drive_id := f.drive_id
    dest_path := none, dest_drive_id := none, status := .pending
    pre_hash := f.blake3_hash.or f.md5_hash
    post_hash := none, executed_at := false
    error := none, step_order := Int.ofNat (order * 2 + 1) }

def addOffloadSteps : Db → Int → Int → String → List File → Nat →
    Except Err Unit × Db
  | db, _, _, _, [], _ => (.ok (), db)
  | db, plan_id, offload_drive_id, offload_mount, f :: rest, order =>
    match add_step db (offloadCopyStep plan_id offload_drive_id offload_mount f order) with
    | (.error e, db1) => (.error e, db1)
    | (.ok _, db1) =>
      match add_step db1 (offloadDeleteStep plan_id f order) with
      | (.error e, db2) => (.error e, db2)
      | (.ok _, db2) =>
        addOffloadSteps db2 plan_id offload_drive_id offload_mount rest (order + 1)

/-- `Planner::create_offload_plan`. -/
def create_offload_plan (opts : PlannerOptions) (env : SpaceEnv) (db : Db)
    (files : List File) (offload_drive_id : Int) (offload_mount : String) :
    Except Err Int × Db :=
  match files with
  | [] => (.error (.migration "No files provided for offload"), db)
  | f0 :: _ =>
    let source_drive_id := f0.drive_id
    let total_files : Int := Int.ofNat files.length
    let total_bytes : Int := (files.map (fun f => f.size_bytes)).sum
    let spaceCheck : Except Err Unit :=
      if opts.enforce_space_limits then
        verify_sufficient_space env offload_mount total_bytes.toNat
      else .ok ()
    match spaceCheck with
    | .error e => (.error e, db)
    | .ok _ =>
      let plan : MigrationPlan :=
        { id := 0
          description := some ("Offload " ++ toString total_files
            ++ " low-priority files to drive " ++ toString offload_drive_id)
          source_drive_id := some source_drive_id
          target_drive_id := some offload_drive_id, status := .draft
          total_files := total_files, total_bytes := total_bytes
          completed_files := 0, completed_bytes := 0 }
      let pr := create_plan db plan
      match addOffloadSteps pr.2 pr.1 offload_drive_id offload_mount files 0 with
      | (.ok _, db2) =>
        let db3 := log_audit db2
          { action := "plan_created", file_id := none, plan_id := some pr.1
            drive_id := some offload_drive_id
            details := some ("Offload plan: " ++ toString total_files ++ " files")
            agent_mode := some "automated" }
        (.ok pr.1, db3)
      | (.error e, db2) => (.error e, db2)

/-- `Planner::approve_plan`: sets the status to `approved`
unconditionally (no check of the current status) and writes one audit
entry. -/
def approve_plan (db : Db) (plan_id : Int) : Except Err Unit × Db :=
  match update_plan_status db plan_id .approved with
  | (.error e, db1) => (.error e, db1)
  | (.ok _, db1) =>
    let db2 := log_audit db1
      { action := "plan_approved", file_id := none, plan_id := some plan_id
        drive_id := none, details := some "Plan approved for execution"
        agent_mode := some "manual" }
    (.ok (), db2)

/-! ## Execution engine (`crates/prune/src/migrate/engine.rs`)

The engine mutates both the catalog and the filesystem; `EState` bundles
the two.  Directory creation (`fs::create_dir_all`) is not modelled (no
claim depends on it); the external copy tools transfer the file entry to
the destination path (for the rclone backend remote paths live in the
same path-keyed store). -/

structure EngineOptions where
  dry_run : Bool
  verify_hashes : Bool
  retry_count : Nat
  enforce_safety : Bool
  deriving DecidableEq, Repr

/-- `EngineOptions::default()`. -/
def EngineOptions.default : EngineOptions :=
  { dry_run := true, verify_hashes := true, retry_count := 3
    enforce_safety := true }

structure EState where
  db : Db
  fs : Fs
  deriving DecidableEq, Repr

/-- `MigrationEngine::execute_copy`. -/
def execute_copy (opts : EngineOptions) (st : EState) (step : MigrationStep) :
    Except Err Int × EState :=
  match step.dest_path with
  | none => (.error (.migration "No destination path"), st)
  | some dest =>
    match Fs.find st.fs step.source_path with
    | none => (.error (.fileNotFound step.source_path), st)
    | some entry =>
      let file_size := entry.size
      let preRes : Except Err (String × Db) :=
        if opts.verify_hashes then
          match compute_blake3_hash st.fs step.source_path with
          | .error e => .error e
          | .ok h => .ok (h, update_step_hashes st.db step.id h none)
        else
          match step.pre_hash with
          | some h => .ok (h, st.db)
          | none => .error (.migration "No pre-hash available")
      match preRes with
      | .error e => (.error e, st)
      | .ok (pre_hash, db1) =>
        match step.dest_drive_id with
        | none => (.error (.migration "No destination drive"), { st with db := db1 })
        | some did =>
          match get_drive_by_id db1 did with
          | none => (.error (.driveNotFound "destination"), { st with db := db1 })
          | some dest_drive =>
            let copyRes : Except Err Fs :=
              match dest_drive.backend with
              | .local => .ok (Fs.write st.fs dest entry)
              | .rclone =>
                match dest_drive.rclone_remote with
                | none => .error (.migration "No rclone remote")
                | some _ => .ok (Fs.write st.fs dest entry)
            match copyRes with
            | .error e => (.error e, { st with db := db1 })
            | .ok fs1 =>
              if opts.verify_hashes && dest_drive.backend == Backend.local then
                match verify_destination fs1 dest pre_hash with
                | .error e => (.error e, { db := db1, fs := fs1 })
                | .ok _ =>
                  let db2 := update_step_hashes db1 step.id pre_hash (some pre_hash)
                  (.ok file_size, { db := db2, fs := fs1 })
              else
                (.ok file_size, { db := db1, fs := fs1 })

/-- `MigrationEngine::execute_move`: the copy protocol, then a re-fetch
of the step row, a status check, a safety re-hash of the source, and
the unlink of the source. -/
def execute_move (opts : EngineOptions) (st : EState) (step : MigrationStep) :
    Except Err Int × EState :=
  match execute_copy opts st step with
  | (.error e, st1) => (.error e, st1)
  | (.ok bytes, st1) =>
    match get_step st1.db step.id with
    | none => (.error (.migration "Step disappeared"), st1)
    | some step1 =>
      if step1.status ≠ StepStatus.completed then
        (.error (.migration "Copy step did not complete"), st1)
      else
        match (if opts.enforce_safety && opts.verify_hashes then
                 match step1.pre_hash with
                 | some pre => verify_source_unchanged st1.fs step1.source_path pre
                 | none => Except.ok ()
               else Except.ok ()) with
        | .error e => (.error e, st1)
        | .ok _ =>
          match Fs.find st1.fs step1.source_path with
          | none => (.error (.io ("No such file: " ++ step1.source_path)), st1)
          | some _ =>
            (.ok bytes, { st1 with fs := Fs.remove st1.fs step1.source_path })

/-- `MigrationEngine::execute_delete`: a vanished source is a warning
and completes with 0 bytes; under `enforce_safety` a stored `pre_hash`
is required and re-verified before the unlink. -/
def execute_delete (opts : EngineOptions) (st : EState) (step : MigrationStep) :
    Except Err Int × EState :=
  match Fs.find st.fs step.source_path with
  | none => (.ok 0, st)
  | some entry =>
    let file_size := entry.size
    let chk : Except Err Unit :=
      if opts.enforce_safety then
        match step.pre_hash with
        | some expected_hash =>
          verify_source_unchanged st.fs step.source_path expected_hash
        | none => .error (.migration "Cannot delete without hash verification")
      else .ok ()
    match chk with
    | .error e => (.error e, st)
    | .ok _ =>
      (.ok file_size, { st with fs := Fs.remove st.fs step.source_path })

/-- `MigrationEngine::execute_hardlink`: creates the link (the linked
path shares the source's content entry) and returns the source's size. -/
def execute_hardlink (opts : EngineOptions) (st : EState) (step : MigrationStep) :
    Except Err Int × EState :=
  match step.dest_path with
  | none => (.error (.migration "No destination path"), st)
  | some dest =>
    match Fs.find st.fs step.source_path with
    | none => (.error (.fileNotFound step.source_path), st)
    | some entry =>
      match Fs.find st.fs dest with
      | some _ => (.error (.io ("File exists: " ++ dest)), st)
      | none =>
        (.ok entry.size, { st with fs := Fs.write st.fs dest entry })

/-- `MigrationEngine::execute_symlink`: creates the link (resolving to
the source's content) and returns 0 bytes. -/
def execute_symlink (opts : EngineOptions) (st : EState) (step : MigrationStep) :
    Except Err Int × EState :=
  match step.dest_path with
  | none => (.error (.migration "No destination path"), st)
  | some dest =>
    match Fs.find st.fs step.source_path with
    | none => (.error (.fileNotFound step.source_path), st)
    | some entry =>
      match Fs.find st.fs dest with
      | some _ => (.error (.io ("File exists: " ++ dest)), st)
      | none =>
        (.ok 0, { st with fs := Fs.write st.fs dest entry })

/-- `MigrationEngine::execute_step`: marks the step in-progress,
dispatches on the action, and on success marks it completed, records the
execution timestamp and writes the `step_completed_<action>` audit
entry; on failure the step is marked failed with the error text. -/
def execute_step (opts : EngineOptions) (st : EState) (step : MigrationStep) :
    Except Err Int × EState :=
  let st0 : EState :=
    { st with db := update_step_status st.db step.id .inProgress none }
  let res :=
    match step.action with
    | .copy => execute_copy opts st0 step
    | .move => execute_move opts st0 step
    | .delete => execute_delete opts st0 step
    | .hardlink => execute_hardlink opts st0 step
    | .symlink => execute_symlink opts st0 step
  match res with
  | (.ok bytes, st1) =>
    let db1 := update_step_status st1.db step.id .completed none
    let db2 := mark_step_executed db1 step.id
    let db3 := log_audit db2
      { action := "step_completed_" ++ step.action.as_str
        file_id := some step.file_id, plan_id := some step.plan_id
        drive_id := some step.source_drive_id
        details := some ("Step " ++ toString step.id ++ " completed successfully")
        agent_mode := some "automated" }
    (.ok bytes, { st1 with db := db3 })
  | (.error e, st1) =>
    let db1 := update_step_status st1.db step.id .failed (some e.render)
    (.error e, { st1 with db := db1 })

/-- `MigrationEngine::dry_run_plan`: walks the steps and logs what would
be done, with an observational free-space probe; no step status, plan
status, audit or filesystem mutation is performed. -/
def dry_run_plan (st : EState) (plan_id : Int) : Except Err Unit × EState :=
  let _ := get_steps_for_plan st.db plan_id
  (.ok (), st)

/-- The per-step loop of `execute_plan`, carrying the in-memory
`(completed_files, completed_bytes)` accumulators; on the first failure
the step is marked failed, a `step_failed` audit entry is written, the
plan is aborted and the error is returned without touching later
steps. -/
def execPlanLoop (opts : EngineOptions) (st : EState) (plan_id : Int) :
    List MigrationStep → Int → Int → Except Err Unit × EState
  | [], cf, cb =>
    match update_plan_status st.db plan_id .completed with
    | (.error e, db1) => (.error e, { st with db := db1 })
    | (.ok _, db1) =>
      let db2 := log_audit db1
        { action := "plan_execution_completed", file_id := none
          plan_id := some plan_id, drive_id := none
          details := some ("Completed " ++ toString cf ++ " files, "
            ++ toString cb ++ " bytes")
          agent_mode := some "automated" }
      (.ok (), { st with db := db2 })
  | step :: rest, cf, cb =>
    match execute_step opts st step with
    | (.ok bytes, st1) =>
      let cf1 := cf + 1
      let cb1 := cb + bytes
      match update_plan_progress st1.db plan_id cf1 cb1 with
      | (.error e, db1) => (.error e, { st1 with db := db1 })
      | (.ok _, db1) =>
        execPlanLoop opts { st1 with db := db1 } plan_id rest cf1 cb1
    | (.error e, st1) =>
      let db1 := update_step_status st1.db step.id .failed (some e.render)
      let db2 := log_audit db1
        { action := "step_failed", file_id := some step.file_id
          plan_id := some plan_id, drive_id := some step.source_drive_id
          details := some ("Step failed: " ++ e.render)
          agent_mode := some "automated" }
      match update_plan_status db2 plan_id .aborted with
      | (.error e2, db3) => (.error e2, { st1 with db := db3 })
      | (.ok _, db3) => (.error e, { st1 with db := db3 })

/-- `MigrationEngine::execute_plan`. -/
def execute_plan (opts : EngineOptions) (st : EState) (plan_id : Int) :
    Except Err Unit × EState :=
  match get_plan st.db plan_id with
  | none => (.error (.planNotFound plan_id), st)
  | some plan =>
    if plan.status ≠ PlanStatus.approved then
      (.error (.planNotApproved plan_id), st)
    else if opts.dry_run then
      dry_run_plan st plan_id
    else
      match update_plan_status st.db plan_id .inProgress with
      | (.error e, db1) => (.error e, { st with db := db1 })
      | (.ok _, db1) =>
        let db2 := log_audit db1
          { action := "plan_execution_started", file_id := none
            plan_id := some plan_id, drive_id := none
            details := some "Starting plan execution"
            agent_mode := some "automated" }
        let steps := get_pending_steps db2 plan_id
        execPlanLoop opts { st with db := db2 } plan_id steps 0 0

/-! ## Rollback engine (`crates/prune/src/migrate/rollback.rs`) -/

/-- `RollbackEngine::rollback_copy`: delete the copied destination,
verifying it against `post_hash` first when hash verification is on; a
missing destination is only a warning. -/
def rollback_copy (verify_hashes : Bool) (st : EState) (step : MigrationStep) :
    Except Err Unit × EState :=
  match step.dest_path with
  | none => (.error (.migration "No destination path for rollback"), st)
  | some dest =>
    match Fs.find st.fs dest with
    | some _ =>
      let chk : Except Err Unit :=
        if verify_hashes then
          match step.post_hash with
          | some post_hash => verify_destination st.fs dest post_hash
          | none => .ok ()
        else .ok ()
      match chk with
      | .error e => (.error e, st)
      | .ok _ => (.ok (), { st with fs := Fs.remove st.fs dest })
    | none => (.ok (), st)

/-- `RollbackEngine::rollback_move`: copy the destination back to the
source (verifying against `pre_hash` when enabled) and remove the
destination. -/
def rollback_move (verify_hashes : Bool) (st : EState) (step : MigrationStep) :
    Except Err Unit × EState :=
  match step.dest_path with
  | none => (.error (.migration "No destination path for rollback"), st)
  | some dest =>
    match Fs.find st.fs dest with
    | none =>
      (.error (.migration
        ("Cannot rollback move: destination file not found: " ++ dest)), st)
    | some dentry =>
      let chk1 : Except Err Unit :=
        if verify_hashes then
          match step.pre_hash with
          | some pre => verify_destination st.fs dest pre
          | none => .ok ()
        else .ok ()
      match chk1 with
      | .error e => (.error e, st)
      | .ok _ =>
        match step.dest_drive_id with
        | none => (.error (.migration "No destination drive"), st)
        | some did =>
          match get_drive_by_id st.db did with
          | none => (.error (.driveNotFound "destination"), st)
          | some dest_drive =>
            let remoteChk : Except Err Unit :=
              match dest_drive.backend with
              | .local => .ok ()
              | .rclone =>
                match dest_drive.rclone_remote with
                | none => .error (.migration "No rclone remote")
                | some _ => .ok ()
            match remoteChk with
            | .error e => (.error e, st)
            | .ok _ =>
              let fs1 := Fs.write st.fs step.source_path dentry
              let chk2 : Except Err Unit :=
                if verify_hashes && dest_drive.backend == Backend.local then
                  match step.pre_hash with
                  | some pre => verify_destination fs1 step.source_path pre
                  | none => .ok ()
                else .ok ()
              match chk2 with
              | .error e => (.error e, { st with fs := fs1 })
              | .ok _ =>
                if dest_drive.backend == Backend.local then
                  match Fs.find fs1 dest with
                  | some _ => (.ok (), { st with fs := Fs.remove fs1 dest })
                  | none => (.error (.io ("No such file: " ++ dest)),
                             { st with fs := fs1 })
                else
                  (.ok (), { st with fs := fs1 })

/-- `RollbackEngine::rollback_delete`: a delete is never reversible. -/
def rollback_delete (st : EState) (step : MigrationStep) :
    Except Err Unit × EState :=
  (.error (.migration "Cannot rollback delete: file is permanently deleted"), st)

/-- `RollbackEngine::rollback_hardlink`. -/
def rollback_hardlink (st : EState) (step : MigrationStep) :
    Except Err Unit × EState :=
  match step.dest_path with
  | none => (.error (.migration "No destination path for rollback"), st)
  | some dest =>
    match Fs.find st.fs dest with
    | some _ => (.ok (), { st with fs := Fs.remove st.fs dest })
    | none => (.ok (), st)

/-- `RollbackEngine::rollback_symlink`. -/
def rollback_symlink (st : EState) (step : MigrationStep) :
    Except Err Unit × EState :=
  match step.dest_path with
  | none => (.error (.migration "No destination path for rollback"), st)
  | some dest =>
    match Fs.find st.fs dest with
    | some _ => (.ok (), { st with fs := Fs.remove st.fs dest })
    | none => (.ok (), st)

/-- `RollbackEngine::rollback_step`. -/
def rollback_step (verify_hashes : Bool) (st : EState) (step : MigrationStep) :
    Except Err Unit × EState :=
  match step.action with
  | .copy => rollback_copy verify_hashes st step
  | .move => rollback_move verify_hashes st step
  | .delete => rollback_delete st step
  | .hardlink => rollback_hardlink st step
  | .symlink => rollback_symlink st step

/-- The per-step loop of `rollback_plan` over the reversed completed
steps: on success the step becomes `rolled_back` with an audit entry; on
failure a failure audit entry is written and the rollback stops. -/
def rollbackLoop (verify_hashes : Bool) (st : EState) (plan_id : Int) :
    List MigrationStep → Except Err Unit × EState
  | [] => (.ok (), st)
  | step :: rest =>
    match rollback_step verify_hashes st step with
    | (.ok _, st1) =>
      let db1 := update_step_status st1.db step.id .rolledBack none
      let db2 := log_audit db1
        { action := "step_rolled_back", file_id := some step.file_id
          plan_id := some plan_id, drive_id := some step.source_drive_id
          details := some ("Step " ++ toString step.id
            ++ " rolled back successfully")
          agent_mode := some "manual" }
      rollbackLoop verify_hashes { st1 with db := db2 } plan_id rest
    | (.error e, st1) =>
      let db1 := log_audit st1.db
        { action := "step_rollback_failed", file_id := some step.file_id
          plan_id := some plan_id, drive_id := some step.source_drive_id
          details := some ("Step rollback failed: " ++ e.render)
          agent_mode := some "manual" }
      (.error e, { st1 with db := db1 })

/-- The audit entry `rollback_plan` writes before touching anything. -/
def rollbackStartedEntry (plan_id : Int) : AuditLogEntry :=
  { action := "rollback_started", file_id := none
    plan_id := some plan_id, drive_id := none
    details := some "Starting plan rollback", agent_mode := some "manual" }

/-- `RollbackEngine::rollback_plan`: walks the completed steps of the
plan in reverse step order, undoing each; there is no up-front check of
the plan for completed delete steps. -/
def rollback_plan (verify_hashes : Bool) (st : EState) (plan_id : Int) :
    Except Err Unit × EState :=
  match get_plan st.db plan_id with
  | none => (.error (.planNotFound plan_id), st)
  | some _ =>
    let db1 := log_audit st.db (rollbackStartedEntry plan_id)
    let completed_steps := (get_steps_for_plan db1 plan_id).filter
      (fun s => s.status == StepStatus.completed)
    match rollbackLoop verify_hashes { st with db := db1 } plan_id
        completed_steps.reverse with
    | (.error e, st2) => (.error e, st2)
    | (.ok _, st2) =>
      let db2 := log_audit st2.db
        { action := "rollback_completed", file_id := none
          plan_id := some plan_id, drive_id := none
          details := some ("Rollback completed for "
            ++ toString completed_steps.length ++ " steps")
          agent_mode := some "manual" }
      (.ok (), { st2 with db := db2 })

/-- `RollbackEngine::can_rollback`: false iff some step of the plan is
completed with action `delete`. -/
def can_rollback (db : Db) (plan_id : Int) : Except Err Bool :=
  if (get_steps_for_plan db plan_id).any
      (fun s => s.status == StepStatus.completed
        && s.action == StepAction.delete) then
    .ok false
  else
    .ok true

/-! ## Concrete fixtures used by the claim theorems -/

/-- A 64-hex-character BLAKE3 digest string. -/
def h64 : String :=
  "aaaaaaaaaaaaaaaaaaaaaaaaaaaaaaaaaaaaaaaaaaaaaaaaaaaaaaaaaaaaaaaa"

/-- A 32-hex-character MD5 digest string. -/
def h32 : String := "cccccccccccccccccccccccccccccccc"

def driveLocal : Drive :=
  { id := 1, label := "source", mount_path := some "/mnt/drive1"
    backend := .local, rclone_remote := none }

def driveTarget : Drive :=
  { id := 2, label := "target", mount_path := some "/mnt/target"
    backend := .local, rclone_remote := none }

/-- A freshly initialized catalog with two local drives registered. -/
def dbEmpty : Db :=
  { drives := [driveLocal, driveTarget], plans := [], steps := []
    audits := [], nextPlanId := 1, nextStepId := 1, failStepInsert := none }

def origFile : File :=
  { id := 1, drive_id := 1, path := "original.txt"
    abs_path := "/mnt/drive1/original.txt", size_bytes := 1000
    md5_hash := none, blake3_hash := some h64, target_path := none }

def dupFile : File :=
  { id := 2, drive_id := 1, path := "dup1.txt"
    abs_path := "/mnt/drive1/dup1.txt", size_bytes := 1000
    md5_hash := none, blake3_hash := some h64, target_path := none }

def entryA : Entry := { size := 1000, blake3Hex := h64, md5Hex := h32 }

def safetyOn : EngineOptions :=
  { dry_run := false, verify_hashes := true, retry_count := 3
    enforce_safety := true }

deriving instance DecidableEq for Except

/-- The per-action byte contribution a successfully executed step adds
to the plan's progress counters, as the engine computes it: copy, move,
delete and hardlink return the source file's size (a delete whose
source has vanished returns 0); symlink returns 0. -/
def stepByteContribution (fs : Fs) (step : MigrationStep) : Int :=
  match step.action with
  | .symlink => 0
  | _ =>
    match Fs.find fs step.source_path with
    | some e => e.size
    | none => 0

/-- The step row the catalog holds after `create_dedup_plan dbEmpty
[dupFile] origFile`: note `pre_hash := none` although `dupFile` carries
a BLAKE3 hash. -/
def c1row : MigrationStep :=
  { id := 1, plan_id := 1, file_id := 2, action := .delete
    source_path := "/mnt/drive1/dup1.txt", source_drive_id := 1
    dest_path := none, dest_drive_id := none, status := .pending
    pre_hash := none, post_hash := none, executed_at := false
    error := none, step_order := 0 }

/-- A `SpaceInfo` whose free bytes are `2 ^ 54 - 1`: the `u64 → f64`
conversion rounds this up to `2 ^ 54`, making the computed budget
`2 ^ 53`, which exceeds half of the true free bytes. -/
def c7si : SpaceInfo :=
  { total_bytes := 36028797018963968, free_bytes := 18014398509481983
    used_bytes := 18014398509481985, available_bytes := 9007199254740992 }

def s1del : MigrationStep :=
  { id := 1, plan_id := 1, file_id := 2, action := .delete
    source_path := "/mnt/drive1/dup1.txt", source_drive_id := 1
    dest_path := none, dest_drive_id := none, status := .completed
    pre_hash := some h64, post_hash := none, executed_at := true
    error := none, step_order := 0 }

def s2copy : MigrationStep :=
  { id := 2, plan_id := 1, file_id := 3, action := .copy
    source_path := "/mnt/drive1/b.txt", source_drive_id := 1
    dest_path := some "/mnt/target/b.txt", dest_drive_id := some 2
    status := .completed, pre_hash := none, post_hash := none
    executed_at := true, error := none, step_order := 1 }

def c2plan : MigrationPlan :=
  { id := 1, description := none, source_drive_id := none
    target_drive_id := none, status := .completed, total_files := 2
    total_bytes := 2000, completed_files := 2, completed_bytes := 2000 }

def c2db : Db :=
  { dbEmpty with plans := [c2plan], steps := [s1del, s2copy]
                 nextPlanId := 2, nextStepId := 3 }

def c2fs : Fs := [("/mnt/target/b.txt", entryA)]

/-- A catalog whose next `add_step` INSERT will fail at runtime. -/
def c3db : Db := { dbEmpty with failStepInsert := some 0 }

def entry5 : Entry := { size := 5, blake3Hex := h64, md5Hex := h32 }

def c8step : MigrationStep :=
  { id := 1, plan_id := 1, file_id := 2, action := .hardlink
    source_path := "/mnt/drive1/dup1.txt", source_drive_id := 1
    dest_path := some "/mnt/target/link1", dest_drive_id := some 2
    status := .pending, pre_hash := none, post_hash := none
    executed_at := false, error := none, step_order := 0 }

def c8plan : MigrationPlan :=
  { id := 1, description := none, source_drive_id := some 1
    target_drive_id := some 2, status := .approved, total_files := 1
    total_bytes := 5, completed_files := 0, completed_bytes := 0 }

def c8db : Db :=
  { dbEmpty with plans := [c8plan], steps := [c8step]
                 nextPlanId := 2, nextStepId := 2 }

def c8fs : Fs := [("/mnt/drive1/dup1.txt", entry5)]

def c9plan : MigrationPlan :=
  { id := 1, description := none, source_drive_id := none
    target_drive_id := none, status := .aborted, total_files := 1
    total_bytes := 5, completed_files := 0, completed_bytes := 0 }

def c9db : Db := { dbEmpty with plans := [c9plan], nextPlanId := 2 }

/-- A copy step whose concatenated destination escapes the target mount
root `/mnt/target` through parent-directory components. -/
def c6step : MigrationStep :=
  { id := 1, plan_id := 1, file_id := 2, action := .copy
    source_path := "/mnt/drive1/dup1.txt", source_drive_id := 1
    dest_path := some "/mnt/target/../../etc/evil", dest_drive_id := some 2
    status := .pending, pre_hash := some h64, post_hash := none
    executed_at := false, error := none, step_order := 0 }

/-! ## Helper lemmas -/

theorem Fs.find_remove (fs : Fs) (p q : String) :
    Fs.find (Fs.remove fs p) q = if q = p then none else Fs.find fs q := by
  induction fs with
  | nil => simp [Fs.find, Fs.remove]
  | cons kv rest ih =>
    by_cases h1 : kv.1 = p
    · rw [show Fs.remove (kv :: rest) p = Fs.remove rest p by simp [Fs.remove, h1]]
      rw [ih]
      by_cases h2 : q = p
      · simp [h2]
      · have hne : ¬ kv.1 = q := fun hc => h2 (hc.symm.trans h1)
        simp [Fs.find, h2, hne]
    · rw [show Fs.remove (kv :: rest) p = kv :: Fs.remove rest p by
        simp [Fs.remove, h1]]
      by_cases h2 : kv.1 = q
      · have hqp : ¬ q = p := fun hc => h1 (h2.trans hc)
        simp [Fs.find, h2, hqp]
      · simp [Fs.find, h2, ih]

theorem Fs.find_write (fs : Fs) (p q : String) (e : Entry) :
    Fs.find (Fs.write fs p e) q = if q = p then some e else Fs.find fs q := by
  by_cases h : q = p
  · simp [Fs.find, Fs.write, h]
  · have hpq : ¬ p = q := fun hc => h hc.symm
    simp [Fs.find, Fs.write, hpq, Fs.find_remove, h]

theorem eqIgnoreAsciiCase_self (s : String) : eqIgnoreAsciiCase s s = true := by
  simp [eqIgnoreAsciiCase]

theorem mem_insertByOrder (a s : MigrationStep) (l : List MigrationStep) :
    a ∈ insertByOrder s l ↔ a = s ∨ a ∈ l := by
  induction l with
  | nil => simp [insertByOrder]
  | cons t ts ih =>
    by_cases h : s.step_order ≤ t.step_order
    · simp [insertByOrder, h]
    · simp [insertByOrder, h, ih]
      tauto

theorem mem_sortByOrder (a : MigrationStep) (l : List MigrationStep) :
    a ∈ sortByOrder l ↔ a ∈ l := by
  induction l with
  | nil => simp [sortByOrder]
  | cons t ts ih =>
    simp only [sortByOrder, List.foldr] at ih ⊢
    rw [mem_insertByOrder, ih, List.mem_cons]

theorem binadeExp_eq_zero (n : Nat) (h : n < 2 ^ 53) : binadeExp n = 0 := by
  unfold binadeExp
  rw [List.length_eq_zero, List.filter_eq_nil_iff]
  intro a _
  simp only [decide_eq_true_eq]
  intro hle
  have h1 : (2 : Nat) ^ 53 ≤ 2 ^ 53 * 2 ^ a :=
    Nat.le_mul_of_pos_right _ (Nat.pos_pow_of_pos a (by norm_num))
  omega

theorem u64AsF64_of_lt (n : Nat) (h : n < 2 ^ 53) : u64AsF64 n = n := by
  unfold u64AsF64 roundTiesEven
  rw [binadeExp_eq_zero n h]
  simp [Nat.mod_one]

theorem get_drive_by_id_update_step_hashes (db : Db) (sid : Int)
    (pre : String) (post : Option String) (did : Int) :
    get_drive_by_id (update_step_hashes db sid pre post) did =
      get_drive_by_id db did := rfl

theorem add_step_fail_now (db : Db) (s : MigrationStep)
    (h : db.failStepInsert = some 0) :
    add_step db s = (.error (.database "INSERT INTO migration_steps failed"),
      { db with failStepInsert := none }) := by
  simp [add_step, h]

theorem add_step_countdown (db : Db) (s : MigrationStep) (k : Nat)
    (h : db.failStepInsert = some (k + 1)) :
    add_step db s = (.ok db.nextStepId,
      { db with failStepInsert := some k
                steps := db.steps ++ [persistedStepRow db.nextStepId s]
                nextStepId := db.nextStepId + 1 }) := by
  simp [add_step, h, addStepRow]

theorem add_step_ok (db : Db) (s : MigrationStep)
    (h : db.failStepInsert = none) :
    add_step db s = (.ok db.nextStepId,
      { db with steps := db.steps ++ [persistedStepRow db.nextStepId s]
                nextStepId := db.nextStepId + 1 }) := by
  simp [add_step, h, addStepRow]

theorem addTrashSteps_fail (files : List File) :
    ∀ (db : Db) (pid : Int) (ord k : Nat),
      db.failStepInsert = some k → k < files.length →
      (∃ e, (addTrashSteps db pid files ord).1 = .error e) ∧
      (addTrashSteps db pid files ord).2.plans = db.plans ∧
      (addTrashSteps db pid files ord).2.steps.length = db.steps.length + k := by
  induction files with
  | nil =>
    intro db pid ord k h1 h2
    simp at h2
  | cons f rest ih =>
    intro db pid ord k h1 h2
    cases k with
    | zero =>
      rw [show addTrashSteps db pid (f :: rest) ord =
          (.error (.database "INSERT INTO migration_steps failed"),
            { db with failStepInsert := none }) by
        simp [addTrashSteps, add_step_fail_now db _ h1]]
      exact ⟨⟨_, rfl⟩, rfl, rfl⟩
    | succ j =>
      rw [show addTrashSteps db pid (f :: rest) ord =
          addTrashSteps
            { db with failStepInsert := some j
                      steps := db.steps ++
                        [persistedStepRow db.nextStepId (trashStep pid f ord)]
                      nextStepId := db.nextStepId + 1 } pid rest (ord + 1) by
        simp [addTrashSteps, add_step_countdown db _ j h1]]
      have h2' : j < rest.length := by
        simp only [List.length_cons] at h2
        omega
      obtain ⟨he, hp, hl⟩ := ih
        { db with failStepInsert := some j
                  steps := db.steps ++
                    [persistedStepRow db.nextStepId (trashStep pid f ord)]
                  nextStepId := db.nextStepId + 1 } pid (ord + 1) j rfl h2'
      refine ⟨he, hp, ?_⟩
      rw [hl]
      simp
      omega

theorem addDedupSteps_ok (files : List File) :
    ∀ (db : Db) (pid : Int) (ord : Nat),
      db.failStepInsert = none →
      (addDedupSteps db pid files ord).1 = .ok () ∧
      (addDedupSteps db pid files ord).2.plans = db.plans ∧
      ∃ rows, (addDedupSteps db pid files ord).2.steps = db.steps ++ rows ∧
        rows.map (fun s => (s.file_id, s.action)) =
          files.map (fun f => (f.id, StepAction.delete)) := by
  induction files with
  | nil =>
    intro db pid ord h
    exact ⟨rfl, rfl, [], by simp [addDedupSteps], rfl⟩
  | cons f rest ih =>
    intro db pid ord h
    rw [show addDedupSteps db pid (f :: rest) ord =
        addDedupSteps
          { db with steps := db.steps ++
                      [persistedStepRow db.nextStepId (dedupStep pid f ord)]
                    nextStepId := db.nextStepId + 1 } pid rest (ord + 1) by
      simp [addDedupSteps, add_step_ok db _ h]]
    obtain ⟨hok, hp, rows, hsteps, hmap⟩ := ih
      { db with steps := db.steps ++
                  [persistedStepRow db.nextStepId (dedupStep pid f ord)]
                nextStepId := db.nextStepId + 1 } pid (ord + 1) h
    refine ⟨hok, hp, persistedStepRow db.nextStepId (dedupStep pid f ord) :: rows,
      ?_, ?_⟩
    · rw [hsteps]
      simp
    · simp [hmap, persistedStepRow, dedupStep]

theorem find_plan_map_status (l : List MigrationPlan) (pid : Int)
    (p : MigrationPlan) (st : PlanStatus)
    (h : l.find? (fun q => q.id == pid) = some p) :
    (l.map (fun q => if q.id == pid then { q with status := st } else q)).find?
      (fun q => q.id == pid) = some { p with status := st } := by
  induction l with
  | nil => simp at h
  | cons a as ih =>
    by_cases ha : a.id = pid
    · rw [List.find?_cons_of_pos _ (by simp [ha])] at h
      injection h with h
      subst h
      simp only [List.map_cons, ha, beq_self_eq_true, if_true]
      exact List.find?_cons_of_pos _ (by simp [ha])
    · rw [List.find?_cons_of_neg _ (by simp [ha])] at h
      have hif : (if (a.id == pid) = true then { a with status := st } else a) = a := by
        simp [ha]
      simp only [List.map_cons, hif]
      rw [List.find?_cons_of_neg _ (by simp [ha])]
      exact ih h

theorem rollbackLoop_error_of_delete (vh : Bool) (pid : Int)
    (l : List MigrationStep) :
    ∀ (st : EState), (∃ s ∈ l, s.action = StepAction.delete) →
      ∃ e, (rollbackLoop vh st pid l).1 = .error e := by
  induction l with
  | nil =>
    intro st hex
    simp at hex
  | cons a as ih =>
    intro st hex
    by_cases hdel : a.action = StepAction.delete
    · refine ⟨.migration "Cannot rollback delete: file is permanently deleted", ?_⟩
      simp [rollbackLoop, rollback_step, hdel, rollback_delete]
    · obtain ⟨s, hs, hsd⟩ := hex
      have hs' : s ∈ as := by
        rcases List.mem_cons.mp hs with h | h
        · exact absurd (h ▸ hsd) hdel
        · exact h
      rcases hstep : rollback_step vh st a with ⟨res, st1⟩
      cases res with
      | error e =>
        exact ⟨e, by simp [rollbackLoop, hstep]⟩
      | ok u =>
        simp only [rollbackLoop, hstep]
        exact ih _ ⟨s, hs', hsd⟩

theorem execute_copy_ok_bytes (opts : EngineOptions) (st : EState)
    (step : MigrationStep) (b : Int)
    (h : (execute_copy opts st step).1 = .ok b) :
    b = match Fs.find st.fs step.source_path with
        | some e => e.size
        | none => 0 := by
  simp only [execute_copy] at h
  repeat' split at h
  all_goals simp_all

theorem execute_delete_ok_bytes (opts : EngineOptions) (st : EState)
    (step : MigrationStep) (b : Int)
    (h : (execute_delete opts st step).1 = .ok b) :
    b = match Fs.find st.fs step.source_path with
        | some e => e.size
        | none => 0 := by
  simp only [execute_delete] at h
  repeat' split at h
  all_goals simp_all

theorem execute_hardlink_ok_bytes (opts : EngineOptions) (st : EState)
    (step : MigrationStep) (b : Int)
    (h : (execute_hardlink opts st step).1 = .ok b) :
    b = match Fs.find st.fs step.source_path with
        | some e => e.size
        | none => 0 := by
  simp only [execute_hardlink] at h
  repeat' split at h
  all_goals simp_all

theorem execute_symlink_ok_bytes (opts : EngineOptions) (st : EState)
    (step : MigrationStep) (b : Int)
    (h : (execute_symlink opts st step).1 = .ok b) :
    b = 0 := by
  simp only [execute_symlink] at h
  repeat' split at h
  all_goals simp_all

theorem execute_move_ok_bytes (opts : EngineOptions) (st : EState)
    (step : MigrationStep) (b : Int)
    (h : (execute_move opts st step).1 = .ok b) :
    b = match Fs.find st.fs step.source_path with
        | some e => e.size
        | none => 0 := by
  unfold execute_move at h
  rcases hc : execute_copy opts st step with ⟨rc, st1⟩
  rw [hc] at h
  cases rc with
  | error e => simp at h
  | ok bytes =>
    have hb : bytes = match Fs.find st.fs step.source_path with
        | some e => e.size
        | none => 0 :=
      execute_copy_ok_bytes opts st step bytes (by rw [hc])
    repeat' split at h
    all_goals simp_all

/-! ## Claim theorems -/

/-- C1: the spec says every dedup delete step carries the duplicate's
known hash as pre-hash in the catalog and as read back by the engine.
The planner does set `pre_hash` on the in-memory step struct (first
conjunct), but the `add_step` INSERT omits the `pre_hash` column, so the
persisted row read back via `get_pending_steps` has `pre_hash = none`
and `execute_delete` under `enforce_safety` then refuses the step.  This
theorem evaluates the code at the failing input (one duplicate with a
known BLAKE3 hash). -/
theorem C1_dedup_delete_pre_hash_not_persisted :
    (dedupStep 1 dupFile 0).pre_hash = some h64 ∧
    (create_dedup_plan dbEmpty [dupFile] origFile).1 = .ok 1 ∧
    get_pending_steps (create_dedup_plan dbEmpty [dupFile] origFile).2 1
      = [c1row] ∧
    c1row.pre_hash = none ∧
    (execute_delete safetyOn
        ⟨(create_dedup_plan dbEmpty [dupFile] origFile).2,
          [("/mnt/drive1/dup1.txt", entryA)]⟩ c1row).1 =
      .error (.migration "Cannot delete without hash verification") := by
  exact ⟨by decide, by decide, by decide, by decide, by decide⟩

/-- C4 counterexample: creating a delete-trash plan with an empty file
set does not return an error — it succeeds and persists a plan row with
zero total files, contradicting the claim for this plan kind. -/
theorem C4_delete_trash_empty_accepted_cex :
    (create_delete_trash_plan dbEmpty []).1 = .ok 1 ∧
    (create_delete_trash_plan dbEmpty []).2.plans ≠ [] ∧
    (get_plan (create_delete_trash_plan dbEmpty []).2 1).map
      (fun p => p.total_files) = some 0 := by
  exact ⟨by decide, by decide, by decide⟩

/-- C4 (amended): dedup, migrate and offload plan creation reject an
empty input file set with an error and leave the catalog unchanged;
delete-trash plan creation performs no emptiness check — it succeeds
and persists an (empty) plan row. -/
theorem C4_empty_input_rejected_except_delete_trash
    (db : Db) (orig : File) (opts : PlannerOptions) (env : SpaceEnv)
    (tid : Int) (mnt : String) :
    create_dedup_plan db [] orig =
      (.error (.migration "No duplicate files provided"), db) ∧
    create_migrate_plan opts env db [] tid mnt =
      (.error (.migration "No files provided for migration"), db) ∧
    create_offload_plan opts env db [] tid mnt =
      (.error (.migration "No files provided for offload"), db) ∧
    (create_delete_trash_plan db []).1 = .ok db.nextPlanId ∧
    (create_delete_trash_plan db []).2.plans.length = db.plans.length + 1 := by
  refine ⟨rfl, rfl, rfl, rfl, ?_⟩
  simp [create_delete_trash_plan, addTrashSteps, create_plan, log_audit]

/-- C7 counterexample: for `free_bytes = 2 ^ 54 - 1` the `u64 → f64`
conversion inside `max_safe_write_bytes` rounds the free count up to
`2 ^ 54`, so the computed budget is `2 ^ 53`, which is MORE than half of
the reported free bytes — the claim's bound fails. -/
theorem C7_budget_exceeds_half_free_cex :
    c7si.max_safe_write_bytes = 9007199254740992 ∧
    2 * c7si.max_safe_write_bytes > c7si.free_bytes := by
  exact ⟨by decide, by decide⟩

/-- C7 (amended): for every `SpaceInfo` whose free bytes are below
`2 ^ 53` (where the `f64` round-trip is exact), the budget equals
`min(available, ⌊free / 2⌋)` and never exceeds half of the free bytes;
and whenever the required bytes exceed the budget,
`verify_sufficient_space` rejects with the typed insufficient-space
error carrying the budget and the required count.  (For larger free
counts the float conversion can push the budget slightly above half of
free, see the counterexample.) -/
theorem C7_budget_min_half_free_and_rejection (si : SpaceInfo)
    (env : SpaceEnv) (path : String) (req : Nat)
    (hfree : si.free_bytes < 2 ^ 53) (henv : env path = some si) :
    si.max_safe_write_bytes = Nat.min (si.free_bytes / 2) si.available_bytes ∧
    2 * si.max_safe_write_bytes ≤ si.free_bytes ∧
    (si.max_safe_write_bytes < req →
      verify_sufficient_space env path req =
        .error (.insufficientSpace si.max_safe_write_bytes req)) := by
  have h1 : si.max_safe_write_bytes =
      Nat.min (si.free_bytes / 2) si.available_bytes := by
    unfold SpaceInfo.max_safe_write_bytes
    rw [u64AsF64_of_lt si.free_bytes hfree]
  refine ⟨h1, ?_, ?_⟩
  · rw [h1]
    have hmin : Nat.min (si.free_bytes / 2) si.available_bytes ≤
        si.free_bytes / 2 := Nat.min_le_left _ _
    omega
  · intro hlt
    have hcan : si.can_safely_write req = false := by
      simp [SpaceInfo.can_safely_write]
      omega
    simp [verify_sufficient_space, get_free_space, henv, hcan]

/-- C7 witness input: an ordinary small `SpaceInfo`. -/
def c7smallSi : SpaceInfo :=
  { total_bytes := 1000, free_bytes := 100, used_bytes := 900
    available_bytes := 100 }

/-- Witness for C7: the amended theorem applied at a concrete
`SpaceInfo` with 100 free bytes and a 51-byte request. -/
theorem C7_budget_min_half_free_and_rejection_witness :
    c7smallSi.free_bytes < 2 ^ 53 ∧
    (c7smallSi.max_safe_write_bytes =
        Nat.min (c7smallSi.free_bytes / 2) c7smallSi.available_bytes ∧
      2 * c7smallSi.max_safe_write_bytes ≤ c7smallSi.free_bytes ∧
      (c7smallSi.max_safe_write_bytes < 51 →
        verify_sufficient_space (fun _ => some c7smallSi) "/tgt" 51 =
          .error (.insufficientSpace c7smallSi.max_safe_write_bytes 51))) :=
  ⟨by decide,
   C7_budget_min_half_free_and_rejection c7smallSi (fun _ => some c7smallSi)
     "/tgt" 51 (by decide) rfl⟩

/-- C9 counterexample: `approve_plan` on a plan whose status is
`aborted` succeeds and moves it to `approved`, contradicting the claim
that approval only performs the `draft → approved` transition. -/
theorem C9_aborted_plan_reapproved_cex :
    c9plan.status = PlanStatus.aborted ∧
    (approve_plan c9db 1).1 = .ok () ∧
    get_plan (approve_plan c9db 1).2 1 =
      some { c9plan with status := .approved } := by
  exact ⟨by decide, by decide, by decide⟩

/-- C9 (amended): `approve_plan` transitions EVERY existing plan to
`approved`, regardless of its current status (draft, in-progress,
completed or aborted); only a missing plan id is rejected.  In
particular an aborted or completed plan can be re-approved and
re-executed. -/
theorem C9_approve_sets_any_existing_plan (db : Db) (pid : Int)
    (p : MigrationPlan) (h : get_plan db pid = some p) :
    (approve_plan db pid).1 = .ok () ∧
    get_plan (approve_plan db pid).2 pid =
      some { p with status := .approved } := by
  have h' : db.plans.find? (fun q => q.id == pid) = some p := h
  have hpid : (p.id == pid) = true := by
    have hx := List.find?_some h'
    simpa using hx
  have hany : db.plans.any (fun q => q.id == pid) = true := by
    rw [List.any_eq_true]
    exact ⟨p, List.mem_of_find?_eq_some h', hpid⟩
  have hupd : update_plan_status db pid .approved =
      (.ok (), { db with plans := db.plans.map (fun q =>
        if q.id == pid then { q with status := .approved } else q) }) := by
    simp [update_plan_status, hany]
  constructor
  · simp [approve_plan, hupd]
  · simp only [approve_plan, hupd, log_audit, get_plan]
    exact find_plan_map_status db.plans pid p .approved h

/-- Witness for C9: the amended theorem applied to the aborted plan of
the fixture catalog. -/
theorem C9_approve_sets_any_existing_plan_witness :
    (approve_plan c9db 1).1 = .ok () ∧
    get_plan (approve_plan c9db 1).2 1 =
      some { c9plan with status := .approved } :=
  C9_approve_sets_any_existing_plan c9db 1 c9plan (by decide)

/-- C10: `verify_hash` checks `path.exists()` before anything else and
returns `Ok(false)` for a missing path (for any expected hash of valid
length), and `verify_destination` on a missing destination therefore
reports the destination-verification mismatch error rather than a
not-found or I/O error. -/
theorem C10_verify_hash_missing_path_ok_false (fs : Fs) (p h : String)
    (hmiss : Fs.find fs p = none)
    (hlen : h.length = 32 ∨ h.length = 64) :
    verify_hash fs p h = .ok false ∧
    verify_destination fs p h = .error (.destinationVerification p) := by
  constructor
  · simp [verify_hash, hmiss]
  · simp [verify_destination, verify_hash, hmiss]

/-- Witness for C10: a missing path and a 64-character BLAKE3 hex
string. -/
theorem C10_verify_hash_missing_path_ok_false_witness :
    Fs.find ([] : Fs) "/gone" = none ∧
    (h64.length = 32 ∨ h64.length = 64) ∧
    (verify_hash [] "/gone" h64 = .ok false ∧
      verify_destination [] "/gone" h64 =
        .error (.destinationVerification "/gone")) :=
  ⟨rfl, by decide,
   C10_verify_hash_missing_path_ok_false [] "/gone" h64 rfl (by decide)⟩

/-- C2 counterexample: on a plan whose completed delete step (order 0)
precedes a completed copy step (order 1), `rollback_plan` does return an
error — but NOT "without transitioning any step out of completed and
without performing any filesystem mutation": the reverse walk first
rolls the copy back (its status becomes `rolled_back` and its
destination file is removed from disk) and only then fails on the
delete.  There is no up-front re-check. -/
theorem C2_rollback_mutates_before_refusing_cex :
    s1del.status = StepStatus.completed ∧ s1del.action = StepAction.delete ∧
    s2copy.status = StepStatus.completed ∧
    (rollback_plan false ⟨c2db, c2fs⟩ 1).1 =
      .error (.migration "Cannot rollback delete: file is permanently deleted") ∧
    get_step (rollback_plan false ⟨c2db, c2fs⟩ 1).2.db 2 =
      some { s2copy with status := .rolledBack } ∧
    Fs.find (rollback_plan false ⟨c2db, c2fs⟩ 1).2.fs "/mnt/target/b.txt" =
      none := by
  exact ⟨by decide, by decide, by decide, by decide, by decide, by decide⟩

/-- C2 (amended): for every plan with a completed `delete` step,
`can_rollback` returns false and `rollback_plan` returns an error — but
the rollback engine does not re-check up front: it fails only when the
reverse walk reaches the completed delete step, and completed steps with
larger order keys are already undone (status and filesystem changes) by
then, as the counterexample shows. -/
theorem C2_can_rollback_false_and_rollback_errors
    (vh : Bool) (st : EState) (pid : Int) (s : MigrationStep)
    (hmem : s ∈ get_steps_for_plan st.db pid)
    (hst : s.status = StepStatus.completed)
    (hact : s.action = StepAction.delete) :
    can_rollback st.db pid = .ok false ∧
    ∃ e, (rollback_plan vh st pid).1 = .error e := by
  constructor
  · have hany : (get_steps_for_plan st.db pid).any
        (fun t => t.status == StepStatus.completed
          && t.action == StepAction.delete) = true :=
      List.any_eq_true.mpr ⟨s, hmem, by rw [hst, hact]; rfl⟩
    simp [can_rollback, hany]
  · rcases hR : rollback_plan vh st pid with ⟨res, stF⟩
    cases res with
    | error e => exact ⟨e, rfl⟩
    | ok u =>
      exfalso
      unfold rollback_plan at hR
      cases hp : get_plan st.db pid with
      | none =>
        rw [hp] at hR
        simp at hR
      | some plan =>
        rw [hp] at hR
        simp only [] at hR
        have hmem2 : s ∈ (((get_steps_for_plan
            (log_audit st.db (rollbackStartedEntry pid)) pid).filter
            (fun t => t.status == StepStatus.completed)).reverse) := by
          rw [List.mem_reverse, List.mem_filter]
          refine ⟨?_, by rw [hst]; rfl⟩
          exact hmem
        obtain ⟨e, he⟩ := rollbackLoop_error_of_delete vh pid
          (((get_steps_for_plan
              (log_audit st.db (rollbackStartedEntry pid)) pid).filter
              (fun t => t.status == StepStatus.completed)).reverse)
          { st with db := log_audit st.db (rollbackStartedEntry pid) }
          ⟨s, hmem2, hact⟩
        rcases hloop : rollbackLoop vh
            { st with db := log_audit st.db (rollbackStartedEntry pid) } pid
            (((get_steps_for_plan
                (log_audit st.db (rollbackStartedEntry pid)) pid).filter
                (fun t => t.status == StepStatus.completed)).reverse)
          with ⟨r2, st2⟩
        rw [hloop] at he hR
        simp at he
        rw [he] at hR
        simp at hR

/-- Witness for C2: the amended theorem applied to the fixture plan that
holds a completed delete step. -/
theorem C2_can_rollback_false_and_rollback_errors_witness :
    s1del ∈ get_steps_for_plan c2db 1 ∧
    (can_rollback c2db 1 = .ok false ∧
      ∃ e, (rollback_plan true ⟨c2db, c2fs⟩ 1).1 = .error e) :=
  ⟨by decide,
   C2_can_rollback_false_and_rollback_errors true ⟨c2db, c2fs⟩ 1 s1del
     (by decide) (by decide) (by decide)⟩

/-- C3 counterexample: with a runtime failure injected into the first
step INSERT, `create_delete_trash_plan` returns an error, yet the plan
row is already persisted — the claim "if inserting any of these rows
fails, no plan row, no step row, and no audit row is persisted" fails,
because there is no enclosing transaction. -/
theorem C3_plan_row_persists_on_step_insert_failure_cex :
    (create_delete_trash_plan c3db [dupFile]).1 =
      .error (.database "INSERT INTO migration_steps failed") ∧
    (create_delete_trash_plan c3db [dupFile]).2.plans ≠ [] ∧
    (create_delete_trash_plan c3db [dupFile]).2.plans.length = 1 ∧
    (create_delete_trash_plan c3db [dupFile]).2.steps = [] := by
  exact ⟨by decide, by decide, by decide, by decide⟩

/-- C3 (amended): the plan row, the step rows and the audit entry are
inserted by separate auto-committed statements, not one transaction.
Planner precondition failures happen before the plan insert and leave
the catalog untouched (see the C4 theorem), but once the plan row is in,
a failure of the (k+1)-st step INSERT leaves the plan row and the first
k step rows persisted while the call returns the error. -/
theorem C3_separate_statements_partial_persistence
    (db : Db) (files : List File) (k : Nat)
    (h1 : db.failStepInsert = some k) (h2 : k < files.length) :
    (∃ e, (create_delete_trash_plan db files).1 = .error e) ∧
    (create_delete_trash_plan db files).2.plans.length = db.plans.length + 1 ∧
    (create_delete_trash_plan db files).2.steps.length = db.steps.length + k := by
  obtain ⟨⟨e, he⟩, hp, hl⟩ := addTrashSteps_fail files
    (create_plan db (trashPlanRow files)).2
    (create_plan db (trashPlanRow files)).1 0 k h1 h2
  rcases hA : addTrashSteps (create_plan db (trashPlanRow files)).2
      (create_plan db (trashPlanRow files)).1 files 0 with ⟨rA, dbA⟩
  rw [hA] at he hp hl
  simp at he
  have hres : create_delete_trash_plan db files = (.error e, dbA) := by
    simp only [create_delete_trash_plan]
    rw [hA, he]
  rw [hres]
  refine ⟨⟨e, rfl⟩, ?_, ?_⟩
  · show dbA.plans.length = db.plans.length + 1
    have hcp : dbA.plans = (create_plan db (trashPlanRow files)).2.plans := hp
    rw [hcp]
    simp [create_plan]
  · show dbA.steps.length = db.steps.length + k
    have hcs : dbA.steps.length =
        (create_plan db (trashPlanRow files)).2.steps.length + k := hl
    rw [hcs]
    simp [create_plan]

/-- Witness for C3: the amended theorem applied to the fixture catalog
whose next step INSERT fails. -/
theorem C3_separate_statements_partial_persistence_witness :
    c3db.failStepInsert = some 0 ∧ 0 < ([dupFile] : List File).length ∧
    ((∃ e, (create_delete_trash_plan c3db [dupFile]).1 = .error e) ∧
      (create_delete_trash_plan c3db [dupFile]).2.plans.length =
        c3db.plans.length + 1 ∧
      (create_delete_trash_plan c3db [dupFile]).2.steps.length =
        c3db.steps.length + 0) :=
  ⟨rfl, by decide,
   C3_separate_statements_partial_persistence c3db [dupFile] 0 rfl (by decide)⟩

/-- C5 counterexample: `create_dedup_plan` accepts a duplicate set that
contains the nominated original itself — no membership precondition is
checked — and the created plan contains a delete step for the
original. -/
theorem C5_dedup_original_in_duplicates_accepted_cex :
    (create_dedup_plan dbEmpty [origFile] origFile).1 = .ok 1 ∧
    (get_steps_for_plan (create_dedup_plan dbEmpty [origFile] origFile).2 1).map
      (fun s => (s.file_id, s.action)) = [(origFile.id, StepAction.delete)] := by
  exact ⟨by decide, by decide⟩

/-- C5 (amended): the only precondition `create_dedup_plan` checks is
that the duplicate set is non-empty.  For ANY non-empty duplicate list —
whether or not it contains the nominated original — the plan is created
and one delete step is persisted per listed file, in order, so a plan
with a delete step for the nominated original is possible. -/
theorem C5_dedup_no_membership_check (db : Db) (dups : List File)
    (orig : File) (hne : dups ≠ []) (hfi : db.failStepInsert = none) :
    (create_dedup_plan db dups orig).1 = .ok db.nextPlanId ∧
    ∃ rows, (create_dedup_plan db dups orig).2.steps = db.steps ++ rows ∧
      rows.map (fun s => (s.file_id, s.action)) =
        dups.map (fun f => (f.id, StepAction.delete)) := by
  have hemp : dups.isEmpty = false := by
    cases dups with
    | nil => exact absurd rfl hne
    | cons a l => rfl
  obtain ⟨hok, hp, rows, hsteps, hmap⟩ := addDedupSteps_ok dups
    (create_plan db (dedupPlanRow dups orig)).2
    (create_plan db (dedupPlanRow dups orig)).1 0 hfi
  rcases hA : addDedupSteps (create_plan db (dedupPlanRow dups orig)).2
      (create_plan db (dedupPlanRow dups orig)).1 dups 0 with ⟨rA, dbA⟩
  rw [hA] at hok hsteps
  simp at hok
  constructor
  · simp only [create_dedup_plan, hemp, Bool.false_eq_true, if_false]
    rw [hA, hok]
    rfl
  · refine ⟨rows, ?_, hmap⟩
    simp only [create_dedup_plan, hemp, Bool.false_eq_true, if_false]
    rw [hA, hok]
    show dbA.steps = db.steps ++ rows
    rw [show dbA.steps = (create_plan db (dedupPlanRow dups orig)).2.steps
          ++ rows from hsteps]
    rfl

/-- Witness for C5: the amended theorem applied with the nominated
original itself as the (only) member of the duplicate set. -/
theorem C5_dedup_no_membership_check_witness :
    (create_dedup_plan dbEmpty [origFile] origFile).1 = .ok dbEmpty.nextPlanId ∧
    ∃ rows,
      (create_dedup_plan dbEmpty [origFile] origFile).2.steps =
        dbEmpty.steps ++ rows ∧
      rows.map (fun s => (s.file_id, s.action)) =
        [origFile].map (fun f => (f.id, StepAction.delete)) :=
  C5_dedup_no_membership_check dbEmpty [origFile] origFile (by decide) rfl

/-- C6 counterexample: `execute_copy` performs no containment check on
the destination — a copy step whose destination string
`/mnt/target/../../etc/evil` escapes the target mount root
`/mnt/target` executes successfully and writes the file at the
out-of-root destination, instead of failing with a path-escape error
(the error taxonomy has no such variant). -/
theorem C6_path_escape_not_checked_cex :
    c6step.dest_path = some "/mnt/target/../../etc/evil" ∧
    driveTarget.mount_path = some "/mnt/target" ∧
    (execute_copy safetyOn ⟨dbEmpty, [("/mnt/drive1/dup1.txt", entryA)]⟩
        c6step).1 = .ok 1000 ∧
    Fs.find (execute_copy safetyOn ⟨dbEmpty, [("/mnt/drive1/dup1.txt", entryA)]⟩
        c6step).2.fs "/mnt/target/../../etc/evil" = some entryA := by
  exact ⟨by decide, by decide, by decide, by decide⟩

/-- C6 (amended): the engine performs no path-escape check at all.  For
every copy step satisfying the ordinary preconditions (destination
present, source exists, destination drive resolves to a local drive),
execution succeeds and writes the source's content at EXACTLY the
destination string the step carries — whether or not that path lies
inside the target mount's root. -/
theorem C6_copy_writes_any_destination (opts : EngineOptions) (st : EState)
    (step : MigrationStep) (dest : String) (did : Int) (drv : Drive)
    (e : Entry)
    (hv : opts.verify_hashes = true)
    (hdest : step.dest_path = some dest)
    (hsrc : Fs.find st.fs step.source_path = some e)
    (hdid : step.dest_drive_id = some did)
    (hdrv : get_drive_by_id st.db did = some drv)
    (hback : drv.backend = Backend.local)
    (hlen : e.blake3Hex.length = 64) :
    (execute_copy opts st step).1 = .ok e.size ∧
    Fs.find (execute_copy opts st step).2.fs dest = some e := by
  constructor <;>
    simp [execute_copy, hdest, hsrc, hv, hdid, hback,
      get_drive_by_id_update_step_hashes, hdrv,
      compute_blake3_hash, verify_destination, verify_hash, Fs.find_write,
      hlen, eqIgnoreAsciiCase_self,
      show (Backend.local == Backend.local) = true from rfl]

/-- Witness for C6: the amended theorem applied to the escaping
destination `/mnt/target/../../etc/evil`. -/
theorem C6_copy_writes_any_destination_witness :
    (execute_copy safetyOn ⟨dbEmpty, [("/mnt/drive1/dup1.txt", entryA)]⟩
        c6step).1 = .ok entryA.size ∧
    Fs.find (execute_copy safetyOn ⟨dbEmpty, [("/mnt/drive1/dup1.txt", entryA)]⟩
        c6step).2.fs "/mnt/target/../../etc/evil" = some entryA :=
  C6_copy_writes_any_destination safetyOn
    ⟨dbEmpty, [("/mnt/drive1/dup1.txt", entryA)]⟩ c6step
    "/mnt/target/../../etc/evil" 2 driveTarget entryA rfl rfl (by decide) rfl
    (by decide) rfl (by decide)

/-- C8 counterexample: a successfully executed hardlink step advances
the plan's completed-bytes counter by the file's size (5), not by the
zero bytes the claim says links contribute. -/
theorem C8_hardlink_contributes_size_cex :
    c8step.action = StepAction.hardlink ∧
    (execute_plan safetyOn ⟨c8db, c8fs⟩ 1).1 = .ok () ∧
    (get_plan (execute_plan safetyOn ⟨c8db, c8fs⟩ 1).2.db 1).map
      (fun p => (p.completed_files, p.completed_bytes)) = some (1, 5) ∧
    (5 : Int) ≠ 0 := by
  exact ⟨by decide, by decide, by decide, by decide⟩

/-- C8 (amended): for every successfully executed step, the byte count
the engine adds to the plan's progress counters equals the step's
contribution as the code computes it: copy, move, delete AND hardlink
contribute the source file's size (a delete whose source has vanished
contributes 0); only symlink contributes 0. -/
theorem C8_step_bytes_contribution (opts : EngineOptions) (st st' : EState)
    (step : MigrationStep) (b : Int)
    (h : execute_step opts st step = (.ok b, st')) :
    b = stepByteContribution st.fs step := by
  unfold execute_step at h
  have hfs : ({ st with db :=
      update_step_status st.db step.id StepStatus.inProgress none } :
      EState).fs = st.fs := rfl
  cases hact : step.action with
  | copy =>
    simp only [hact] at h
    rcases hx : execute_copy opts
        { st with db := update_step_status st.db step.id .inProgress none }
        step with ⟨rx, st1⟩
    rw [hx] at h
    cases rx with
    | error e => simp at h
    | ok bytes =>
      simp only [Prod.mk.injEq, Except.ok.injEq] at h
      have hb := execute_copy_ok_bytes opts
        { st with db := update_step_status st.db step.id .inProgress none }
        step bytes (by rw [hx])
      rw [hfs] at hb
      simp only [stepByteContribution, hact]
      rw [← h.1]
      exact hb
  | move =>
    simp only [hact] at h
    rcases hx : execute_move opts
        { st with db := update_step_status st.db step.id .inProgress none }
        step with ⟨rx, st1⟩
    rw [hx] at h
    cases rx with
    | error e => simp at h
    | ok bytes =>
      simp only [Prod.mk.injEq, Except.ok.injEq] at h
      have hb := execute_move_ok_bytes opts
        { st with db := update_step_status st.db step.id .inProgress none }
        step bytes (by rw [hx])
      rw [hfs] at hb
      simp only [stepByteContribution, hact]
      rw [← h.1]
      exact hb
  | delete =>
    simp only [hact] at h
    rcases hx : execute_delete opts
        { st with db := update_step_status st.db step.id .inProgress none }
        step with ⟨rx, st1⟩
    rw [hx] at h
    cases rx with
    | error e => simp at h
    | ok bytes =>
      simp only [Prod.mk.injEq, Except.ok.injEq] at h
      have hb := execute_delete_ok_bytes opts
        { st with db := update_step_status st.db step.id .inProgress none }
        step bytes (by rw [hx])
      rw [hfs] at hb
      simp only [stepByteContribution, hact]
      rw [← h.1]
      exact hb
  | hardlink =>
    simp only [hact] at h
    rcases hx : execute_hardlink opts
        { st with db := update_step_status st.db step.id .inProgress none }
        step with ⟨rx, st1⟩
    rw [hx] at h
    cases rx with
    | error e => simp at h
    | ok bytes =>
      simp only [Prod.mk.injEq, Except.ok.injEq] at h
      have hb := execute_hardlink_ok_bytes opts
        { st with db := update_step_status st.db step.id .inProgress none }
        step bytes (by rw [hx])
      rw [hfs] at hb
      simp only [stepByteContribution, hact]
      rw [← h.1]
      exact hb
  | symlink =>
    simp only [hact] at h
    rcases hx : execute_symlink opts
        { st with db := update_step_status st.db step.id .inProgress none }
        step with ⟨rx, st1⟩
    rw [hx] at h
    cases rx with
    | error e => simp at h
    | ok bytes =>
      simp only [Prod.mk.injEq, Except.ok.injEq] at h
      have hb := execute_symlink_ok_bytes opts
        { st with db := update_step_status st.db step.id .inProgress none }
        step bytes (by rw [hx])
      simp only [stepByteContribution, hact]
      rw [← h.1]
      exact hb

/-- Witness for C8: the amended theorem applied to the executed hardlink
step of the fixture plan (contribution = the file's 5 bytes). -/
theorem C8_step_bytes_contribution_witness :
    (execute_step safetyOn ⟨c8db, c8fs⟩ c8step).1 = .ok 5 ∧
    (5 : Int) = stepByteContribution c8fs c8step :=
  ⟨by decide,
   C8_step_bytes_contribution safetyOn ⟨c8db, c8fs⟩
     (execute_step safetyOn ⟨c8db, c8fs⟩ c8step).2 c8step 5 (by decide)⟩

end Ordne
